import Mathlib

/-!
Verification of the PSP22 fungible-token ledger in src/lib.rs.

The contract state (struct PspCoin) holds a u128 total supply, a sparse
mapping from account identifiers to u128 balances, and a sparse mapping from
(owner, spender) pairs of u128 allowances.  We model u128 values as Nat
together with explicit saturation at 2 ^ 128 - 1, matching the
saturating_add / saturating_sub calls in the source.  The ink! Mapping
type is modelled as an association list so that the distinction between
an absent entry and an entry stored with value zero is preserved
(Mapping.insert always stores, Mapping.get returns none when absent).
Each message returns its Result value, the post-call state, and the list
of events emitted during the call.
-/

namespace InkErc20

/-- The largest value of the Rust u128 type, 2 ^ 128 - 1. -/
def U128_MAX : Nat := 2 ^ 128 - 1

/-- Rust u128 saturating_add: clamps at U128_MAX instead of wrapping. -/
def satAdd (a b : Nat) : Nat := min (a + b) U128_MAX

/-- Rust u128 saturating_sub: Nat subtraction already truncates at zero. -/
def satSub (a b : Nat) : Nat := a - b

/-- Account identifiers are opaque comparable tokens; we model them as Nat. -/
abbrev AccountId := Nat

/-- The error enum PSP22Error from src/lib.rs lines 8-15. -/
inductive PSP22Error where
  | Custom (msg : String)
  | InsufficientBalance
  | InsufficientAllowance
  | ZeroRecipientAddress
  | ZeroSenderAddress
  | SafeTransferCheckFailed (msg : String)
deriving DecidableEq

/-- The Result of a contract message: Ok(()) or Err(PSP22Error). -/
inductive CallResult where
  | ok
  | err (e : PSP22Error)
deriving DecidableEq

/-- The events Transfer and Approval from src/lib.rs lines 43-59. -/
inductive Event where
  | Transfer (src : Option AccountId) (dst : Option AccountId) (value : Nat)
  | Approval (owner : AccountId) (spender : AccountId) (value : Nat)
deriving DecidableEq

/-- An ink! Mapping, modelled as an association list.  A key occurs at
most once; insert overwrites in place or appends. -/
def mapInsert {α : Type} [DecidableEq α] (m : List (α × Nat)) (k : α) (v : Nat) :
    List (α × Nat) :=
  match m with
  | [] => [(k, v)]
  | (k1, v1) :: rest =>
    if k1 = k then (k, v) :: rest else (k1, v1) :: mapInsert rest k v

/-- Mapping.get: some value when the key is stored, none when absent. -/
def mapGet {α : Type} [DecidableEq α] (m : List (α × Nat)) (k : α) : Option Nat :=
  match m with
  | [] => none
  | (k1, v1) :: rest => if k1 = k then some v1 else mapGet rest k

/-- The contract storage struct PspCoin from src/lib.rs lines 27-41. -/
structure PspCoin where
  total_supply : Nat
  balances : List (AccountId × Nat)
  allowances : List ((AccountId × AccountId) × Nat)
  name : Option String
  symbol : Option String
  decimals : Nat
deriving DecidableEq

/-- Outcome of one contract message: the returned Result, the storage
after the call, and the events emitted during the call. -/
structure OpResult where
  res : CallResult
  state : PspCoin
  events : List Event
deriving DecidableEq

/-- Constructor new: credits the whole initial supply onto the caller and
emits one Transfer event from none. -/
def new (caller : AccountId) (total_supply : Nat) (name : Option String)
    (symbol : Option String) (decimals : Nat) : PspCoin × List Event :=
  ({ total_supply := total_supply
     balances := mapInsert [] caller total_supply
     allowances := []
     name := name
     symbol := symbol
     decimals := decimals },
   [Event.Transfer none (some caller) total_supply])

/-- Message balance_of: the stored balance, or zero when absent. -/
def balance_of (s : PspCoin) (owner : AccountId) : Nat :=
  (mapGet s.balances owner).getD 0

/-- Message allowance: the stored allowance, or zero when absent. -/
def allowance (s : PspCoin) (owner : AccountId) (spender : AccountId) : Nat :=
  (mapGet s.allowances (owner, spender)).getD 0

/-- Internal helper _transfer_from_to from src/lib.rs lines 232-253:
checks the source balance, debits the source, credits the destination
against the balance read after the debit, and emits a Transfer event. -/
def _transfer_from_to (s : PspCoin) (src : AccountId) (dst : AccountId)
    (value : Nat) : OpResult :=
  let from_balance := balance_of s src
  if from_balance < value then
    { res := .err .InsufficientBalance, state := s, events := [] }
  else
    let s1 : PspCoin := { s with balances := mapInsert s.balances src (satSub from_balance value) }
    let to_balance := balance_of s1 dst
    let s2 : PspCoin := { s1 with balances := mapInsert s1.balances dst (satAdd to_balance value) }
    { res := .ok, state := s2,
      events := [Event.Transfer (some src) (some dst) value] }

/-- Message transfer from src/lib.rs lines 116-119. -/
def transfer (s : PspCoin) (caller : AccountId) (dst : AccountId)
    (value : Nat) : OpResult :=
  _transfer_from_to s caller dst value

/-- Message transfer_from from src/lib.rs lines 123-137: checks the
allowance of (from, caller), then delegates the move onto _transfer_from_to, and only
on its success writes back the saturating-decremented allowance. -/
def transfer_from (s : PspCoin) (caller : AccountId) (src : AccountId)
    (dst : AccountId) (value : Nat) : OpResult :=
  let allw := allowance s src caller
  if allw < value then
    { res := .err .InsufficientAllowance, state := s, events := [] }
  else
    let r := _transfer_from_to s src dst value
    match r.res with
    | .err e => { res := .err e, state := r.state, events := r.events }
    | .ok =>
      { res := .ok
        state := { r.state with
          allowances := mapInsert r.state.allowances (src, caller) (satSub allw value) }
        events := r.events }

/-- Message approve from src/lib.rs lines 142-151: unconditionally
overwrites the allowance and emits an Approval event. -/
def approve (s : PspCoin) (caller : AccountId) (spender : AccountId)
    (value : Nat) : OpResult :=
  { res := .ok
    state := { s with allowances := mapInsert s.allowances (caller, spender) value }
    events := [Event.Approval caller spender value] }

/-- Message increase_allowance from src/lib.rs lines 155-163. -/
def increase_allowance (s : PspCoin) (caller : AccountId) (spender : AccountId)
    (delta_value : Nat) : OpResult :=
  let allw := allowance s caller spender
  approve s caller spender (satAdd allw delta_value)

/-- Message decrease_allowance from src/lib.rs lines 167-178. -/
def decrease_allowance (s : PspCoin) (caller : AccountId) (spender : AccountId)
    (delta_value : Nat) : OpResult :=
  let allw := allowance s caller spender
  if allw < delta_value then
    { res := .err .InsufficientAllowance, state := s, events := [] }
  else
    approve s caller spender (satSub allw delta_value)

/-- Message mint from src/lib.rs lines 200-211: saturating credit of the
caller balance and of the total supply, always Ok. -/
def mint (s : PspCoin) (caller : AccountId) (value : Nat) : OpResult :=
  let balance := balance_of s caller
  { res := .ok
    state := { s with
      balances := mapInsert s.balances caller (satAdd balance value)
      total_supply := satAdd s.total_supply value }
    events := [Event.Transfer none (some caller) value] }

/-- Message burn from src/lib.rs lines 215-229: checks the caller
balance, then debits it and the total supply. -/
def burn (s : PspCoin) (caller : AccountId) (value : Nat) : OpResult :=
  let balance := balance_of s caller
  if balance < value then
    { res := .err .InsufficientBalance, state := s, events := [] }
  else
    { res := .ok
      state := { s with
        balances := mapInsert s.balances caller (satSub balance value)
        total_supply := satSub s.total_supply value }
      events := [Event.Transfer (some caller) none value] }

/-- One mutating message together with its caller and arguments. -/
inductive Op where
  | transfer (caller : AccountId) (dst : AccountId) (value : Nat)
  | transfer_from (caller : AccountId) (src : AccountId) (dst : AccountId) (value : Nat)
  | approve (caller : AccountId) (spender : AccountId) (value : Nat)
  | increase_allowance (caller : AccountId) (spender : AccountId) (delta_value : Nat)
  | decrease_allowance (caller : AccountId) (spender : AccountId) (delta_value : Nat)
  | mint (caller : AccountId) (value : Nat)
  | burn (caller : AccountId) (value : Nat)
deriving DecidableEq

/-- Dispatches one mutating message on the current storage. -/
def runOp (s : PspCoin) : Op → OpResult
  | .transfer caller dst value => transfer s caller dst value
  | .transfer_from caller src dst value => transfer_from s caller src dst value
  | .approve caller spender value => approve s caller spender value
  | .increase_allowance caller spender delta_value =>
      increase_allowance s caller spender delta_value
  | .decrease_allowance caller spender delta_value =>
      decrease_allowance s caller spender delta_value
  | .mint caller value => mint s caller value
  | .burn caller value => burn s caller value

/-- The storage after one message (on an error the message returned
before any write, so the storage is unchanged). -/
def applyOp (s : PspCoin) (op : Op) : PspCoin := (runOp s op).state

/-- The storage after a whole sequence of messages. -/
def run (s : PspCoin) : List Op → PspCoin
  | [] => s
  | op :: rest => run (applyOp s op) rest

/-- A state is reachable when it arises from the constructor, called
with a supply that fits in u128, followed by some sequence of messages. -/
def Reachable (s : PspCoin) : Prop :=
  ∃ caller supply name symbol decimals ops, supply ≤ U128_MAX ∧
    s = run (new caller supply name symbol decimals).1 ops

/-- The sum of every stored balance, zero-valued entries included. -/
def sumBalances (m : List (AccountId × Nat)) : Nat :=
  match m with
  | [] => 0
  | (_, v) :: rest => v + sumBalances rest

/-- True unless the message is a mint whose saturating addition onto the
total supply would actually clamp at U128_MAX. -/
def mintNoSat (s : PspCoin) : Op → Bool
  | .mint _ value => s.total_supply + value ≤ U128_MAX
  | _ => true

/-- A trace in which no mint ever saturates the total supply. -/
def goodTrace (s : PspCoin) : List Op → Bool
  | [] => true
  | op :: rest => mintNoSat s op && goodTrace (applyOp s op) rest

/-- The conservation invariant: the total supply fits in u128 and equals
the sum of all stored balances. -/
def Inv (s : PspCoin) : Prop :=
  s.total_supply ≤ U128_MAX ∧ s.total_supply = sumBalances s.balances

/-- A concrete deployment used by witnesses: account 0 constructs the
token with an initial supply of 1000. -/
def exInit : PspCoin := (new 0 1000 none none 0).1

/-- The deployment exInit after account 0 approves an allowance of 100
for account 2. -/
def exApproved : PspCoin := (approve exInit 0 2 100).state

/-- Reading back a key that was just inserted yields the inserted value. -/
theorem mapGet_mapInsert_self {α : Type} [DecidableEq α] (m : List (α × Nat))
    (k : α) (v : Nat) : mapGet (mapInsert m k v) k = some v := by
  induction m with
  | nil => simp [mapInsert, mapGet]
  | cons hd tl ih =>
    obtain ⟨k1, v1⟩ := hd
    by_cases h : k1 = k
    · simp [mapInsert, mapGet, h]
    · simp [mapInsert, mapGet, h, ih]

/-- Inserting one key leaves every other key unchanged. -/
theorem mapGet_mapInsert_ne {α : Type} [DecidableEq α] (m : List (α × Nat))
    (k k2 : α) (v : Nat) (h : k2 ≠ k) :
    mapGet (mapInsert m k v) k2 = mapGet m k2 := by
  have hne : k ≠ k2 := fun hh => h hh.symm
  induction m with
  | nil => simp [mapInsert, mapGet, hne]
  | cons hd tl ih =>
    obtain ⟨k1, v1⟩ := hd
    by_cases h1 : k1 = k
    · subst h1
      simp [mapInsert, mapGet, hne]
    · simp [mapInsert, mapGet, h1, ih]

/-- Inserting a value changes the stored sum by the difference with the
value previously stored under the key (absent keys count as zero). -/
theorem sumBalances_mapInsert (m : List (AccountId × Nat)) (k : AccountId)
    (v : Nat) :
    sumBalances (mapInsert m k v) + (mapGet m k).getD 0 = sumBalances m + v := by
  induction m with
  | nil => simp [mapInsert, mapGet, sumBalances]
  | cons hd tl ih =>
    obtain ⟨k1, v1⟩ := hd
    by_cases h : k1 = k
    · simp [mapInsert, mapGet, sumBalances, h]
      omega
    · simp [mapInsert, mapGet, sumBalances, h]
      omega

/-- Each stored balance is at most the sum of all stored balances. -/
theorem mapGet_getD_le_sumBalances (m : List (AccountId × Nat)) (k : AccountId) :
    (mapGet m k).getD 0 ≤ sumBalances m := by
  induction m with
  | nil => simp [mapGet, sumBalances]
  | cons hd tl ih =>
    obtain ⟨k1, v1⟩ := hd
    by_cases h : k1 = k
    · simp [mapGet, sumBalances, h]
    · simp [mapGet, sumBalances, h]
      omega

/-- The internal transfer helper preserves the conservation invariant. -/
theorem Inv_transfer_from_to (s : PspCoin) (src dst : AccountId) (value : Nat)
    (h : Inv s) : Inv (_transfer_from_to s src dst value).state := by
  obtain ⟨hmax, hsum⟩ := h
  by_cases hlt : balance_of s src < value
  · simp only [_transfer_from_to, if_pos hlt]
    exact ⟨hmax, hsum⟩
  · have hble : (mapGet s.balances src).getD 0 ≤ sumBalances s.balances :=
      mapGet_getD_le_sumBalances _ _
    have hins1 := sumBalances_mapInsert s.balances src
      (satSub (balance_of s src) value)
    have hble2 := mapGet_getD_le_sumBalances
      (mapInsert s.balances src (satSub (balance_of s src) value)) dst
    have hins2 := sumBalances_mapInsert
      (mapInsert s.balances src (satSub (balance_of s src) value)) dst
      (satAdd ((mapGet (mapInsert s.balances src
        (satSub (balance_of s src) value)) dst).getD 0) value)
    simp only [_transfer_from_to, if_neg hlt]
    unfold Inv
    simp only [balance_of] at *
    simp only [satAdd, satSub] at *
    constructor
    · exact hmax
    · omega

/-- transfer preserves the conservation invariant. -/
theorem Inv_transfer (s : PspCoin) (caller dst : AccountId) (value : Nat)
    (h : Inv s) : Inv (transfer s caller dst value).state :=
  Inv_transfer_from_to s caller dst value h

/-- transfer_from preserves the conservation invariant: the extra
allowance write touches neither balances nor total supply. -/
theorem Inv_transfer_from (s : PspCoin) (caller src dst : AccountId)
    (value : Nat) (h : Inv s) : Inv (transfer_from s caller src dst value).state := by
  have hinner := Inv_transfer_from_to s src dst value h
  unfold transfer_from
  by_cases hlt : allowance s src caller < value
  · simp only [if_pos hlt]
    exact h
  · simp only [if_neg hlt]
    cases hres : (_transfer_from_to s src dst value).res with
    | err e =>
      simp only [hres]
      exact hinner
    | ok =>
      simp only [hres]
      exact ⟨hinner.1, hinner.2⟩

/-- approve preserves the conservation invariant. -/
theorem Inv_approve (s : PspCoin) (caller spender : AccountId) (value : Nat)
    (h : Inv s) : Inv (approve s caller spender value).state :=
  ⟨h.1, h.2⟩

/-- increase_allowance preserves the conservation invariant. -/
theorem Inv_increase_allowance (s : PspCoin) (caller spender : AccountId)
    (delta_value : Nat) (h : Inv s) :
    Inv (increase_allowance s caller spender delta_value).state :=
  ⟨h.1, h.2⟩

/-- decrease_allowance preserves the conservation invariant. -/
theorem Inv_decrease_allowance (s : PspCoin) (caller spender : AccountId)
    (delta_value : Nat) (h : Inv s) :
    Inv (decrease_allowance s caller spender delta_value).state := by
  unfold decrease_allowance
  by_cases hlt : allowance s caller spender < delta_value
  · simp only [if_pos hlt]
    exact h
  · simp only [if_neg hlt]
    exact ⟨h.1, h.2⟩

/-- mint preserves the conservation invariant provided the saturating
addition onto the total supply does not clamp. -/
theorem Inv_mint (s : PspCoin) (caller : AccountId) (value : Nat)
    (hns : s.total_supply + value ≤ U128_MAX) (h : Inv s) :
    Inv (mint s caller value).state := by
  obtain ⟨hmax, hsum⟩ := h
  have hble : (mapGet s.balances caller).getD 0 ≤ sumBalances s.balances :=
    mapGet_getD_le_sumBalances _ _
  have hins := sumBalances_mapInsert s.balances caller
    (satAdd (balance_of s caller) value)
  unfold mint Inv
  simp only [balance_of] at *
  simp only [satAdd] at *
  constructor
  · omega
  · omega

/-- burn preserves the conservation invariant. -/
theorem Inv_burn (s : PspCoin) (caller : AccountId) (value : Nat)
    (h : Inv s) : Inv (burn s caller value).state := by
  obtain ⟨hmax, hsum⟩ := h
  by_cases hlt : balance_of s caller < value
  · simp only [burn, if_pos hlt]
    exact ⟨hmax, hsum⟩
  · have hble : (mapGet s.balances caller).getD 0 ≤ sumBalances s.balances :=
      mapGet_getD_le_sumBalances _ _
    have hins := sumBalances_mapInsert s.balances caller
      (satSub (balance_of s caller) value)
    simp only [burn, if_neg hlt]
    unfold Inv
    simp only [balance_of] at *
    simp only [satSub] at *
    constructor
    · omega
    · omega

/-- One dispatched message preserves the conservation invariant, provided
a mint never saturates the total supply. -/
theorem Inv_applyOp (s : PspCoin) (op : Op) (hns : mintNoSat s op = true)
    (h : Inv s) : Inv (applyOp s op) := by
  cases op with
  | transfer caller dst value => exact Inv_transfer s caller dst value h
  | transfer_from caller src dst value =>
      exact Inv_transfer_from s caller src dst value h
  | approve caller spender value => exact Inv_approve s caller spender value h
  | increase_allowance caller spender delta_value =>
      exact Inv_increase_allowance s caller spender delta_value h
  | decrease_allowance caller spender delta_value =>
      exact Inv_decrease_allowance s caller spender delta_value h
  | mint caller value =>
      have hns2 : s.total_supply + value ≤ U128_MAX := by
        simpa [mintNoSat] using hns
      exact Inv_mint s caller value hns2 h
  | burn caller value => exact Inv_burn s caller value h

/-- A whole trace of messages preserves the conservation invariant,
provided no mint in it saturates the total supply. -/
theorem run_preserves_Inv (ops : List Op) (s : PspCoin)
    (hg : goodTrace s ops = true) (h : Inv s) : Inv (run s ops) := by
  induction ops generalizing s with
  | nil => simpa [run] using h
  | cons op rest ih =>
    simp only [goodTrace, Bool.and_eq_true] at hg
    exact ih (applyOp s op) hg.2 (Inv_applyOp s op hg.1 h)

/-- Claim C1, counterexample: the state reached by constructing the token
with the maximal u128 supply and then minting 1 from a fresh account is
reachable, yet its total supply differs from the sum of all stored
balances, because the saturating addition in mint clamps the supply at
U128_MAX while the fresh balance still grows. -/
theorem conservation_counterexample :
    Reachable (run (new 0 U128_MAX none none 18).1 [Op.mint 1 1]) ∧
    (run (new 0 U128_MAX none none 18).1 [Op.mint 1 1]).total_supply ≠
      sumBalances (run (new 0 U128_MAX none none 18).1 [Op.mint 1 1]).balances :=
  ⟨⟨0, U128_MAX, none, none, 18, [Op.mint 1 1], le_refl _, rfl⟩, by decide⟩

/-- Claim C1 (amended): for every state reached from the constructor by a
trace of mutating operations in which no mint saturates the total supply,
the total supply equals the sum of all stored balances; each transfer
preserves the sum, each such mint raises balance and supply by equal
amounts, and each burn lowers them by equal amounts. -/
theorem conservation_of_supply (caller supply : Nat) (name symbol : Option String)
    (decimals : Nat) (ops : List Op) (hsupply : supply ≤ U128_MAX)
    (hg : goodTrace (new caller supply name symbol decimals).1 ops = true) :
    (run (new caller supply name symbol decimals).1 ops).total_supply =
      sumBalances (run (new caller supply name symbol decimals).1 ops).balances := by
  have hinit : Inv (new caller supply name symbol decimals).1 := by
    constructor
    · exact hsupply
    · simp [new, mapInsert, sumBalances]
  exact (run_preserves_Inv ops _ hg hinit).2

/-- Witness for conservation_of_supply on a concrete three-step trace. -/
theorem conservation_of_supply_witness :
    (run (new 0 1000 none none 18).1
        [Op.transfer 0 1 400, Op.mint 2 7, Op.burn 2 5]).total_supply =
      sumBalances (run (new 0 1000 none none 18).1
        [Op.transfer 0 1 400, Op.mint 2 7, Op.burn 2 5]).balances :=
  conservation_of_supply 0 1000 none none 18
    [Op.transfer 0 1 400, Op.mint 2 7, Op.burn 2 5] (by decide) (by decide)

/-- Claim C2: every mutating message that returns an error leaves the
storage exactly as it was before the call and emits no event; the checks
all happen before the first write, so an error means zero writes. -/
theorem atomic_on_error (s : PspCoin) (op : Op) (e : PSP22Error)
    (h : (runOp s op).res = .err e) :
    (runOp s op).state = s ∧ (runOp s op).events = [] := by
  cases op with
  | transfer caller dst value =>
    by_cases hlt : balance_of s caller < value
    · simp [runOp, transfer, _transfer_from_to, hlt]
    · simp [runOp, transfer, _transfer_from_to, hlt] at h
  | transfer_from caller src dst value =>
    by_cases hlt : allowance s src caller < value
    · simp [runOp, transfer_from, hlt]
    · by_cases hbal : balance_of s src < value
      · simp [runOp, transfer_from, _transfer_from_to, hlt, hbal]
      · simp [runOp, transfer_from, _transfer_from_to, hlt, hbal] at h
  | approve caller spender value => simp [runOp, approve] at h
  | increase_allowance caller spender delta_value =>
    simp [runOp, increase_allowance, approve] at h
  | decrease_allowance caller spender delta_value =>
    by_cases hlt : allowance s caller spender < delta_value
    · simp [runOp, decrease_allowance, hlt]
    · simp [runOp, decrease_allowance, approve, hlt] at h
  | mint caller value => simp [runOp, mint] at h
  | burn caller value =>
    by_cases hlt : balance_of s caller < value
    · simp [runOp, burn, hlt]
    · simp [runOp, burn, hlt] at h

/-- Witness for atomic_on_error: burning more than the stored balance
fails and leaves the deployment state untouched with no event. -/
theorem atomic_on_error_witness :
    (runOp exInit (Op.burn 0 2000)).state = exInit ∧
    (runOp exInit (Op.burn 0 2000)).events = [] :=
  atomic_on_error exInit (Op.burn 0 2000) PSP22Error.InsufficientBalance (by decide)

/-- Claim C3: transfer_from checks the allowance of (src, caller) first
and fails with InsufficientAllowance and no mutation when it is below the
value; when the allowance suffices but the src balance does not, it fails
with InsufficientBalance leaving the whole state, allowance included,
unchanged; and on success the stored allowance drops by exactly value. -/
theorem transfer_from_allowance_coupling (s : PspCoin) (caller src dst : AccountId)
    (value : Nat) :
    (allowance s src caller < value →
      (transfer_from s caller src dst value).res = .err .InsufficientAllowance ∧
      (transfer_from s caller src dst value).state = s ∧
      (transfer_from s caller src dst value).events = []) ∧
    (value ≤ allowance s src caller → balance_of s src < value →
      (transfer_from s caller src dst value).res = .err .InsufficientBalance ∧
      (transfer_from s caller src dst value).state = s ∧
      allowance (transfer_from s caller src dst value).state src caller =
        allowance s src caller) ∧
    ((transfer_from s caller src dst value).res = .ok →
      allowance (transfer_from s caller src dst value).state src caller =
        allowance s src caller - value) := by
  refine ⟨?_, ?_, ?_⟩
  · intro hlt
    simp [transfer_from, hlt]
  · intro hge hbal
    have hlt : ¬ allowance s src caller < value := not_lt.mpr hge
    simp [transfer_from, _transfer_from_to, hlt, hbal]
  · intro hok
    by_cases hlt : allowance s src caller < value
    · simp [transfer_from, hlt] at hok
    · by_cases hbal : balance_of s src < value
      · simp [transfer_from, _transfer_from_to, hlt, hbal] at hok
      · simp only [transfer_from, if_neg hlt, _transfer_from_to, if_neg hbal]
        simp [allowance, mapGet_mapInsert_self, satSub]

/-- Witness for transfer_from_allowance_coupling: with allowance 100 the
delegated transfer of 50 succeeds and leaves allowance 50. -/
theorem transfer_from_allowance_coupling_witness :
    (transfer_from exApproved 2 0 3 50).res = .ok ∧
    allowance (transfer_from exApproved 2 0 3 50).state 0 2 =
      allowance exApproved 0 2 - 50 :=
  ⟨by decide, (transfer_from_allowance_coupling exApproved 2 0 3 50).2.2 (by decide)⟩

/-- Claim C4, counterexample: two concrete instances refute the claim as
stated. First, a successful self-transfer of 1 from a balance of 10
leaves the caller balance at 10, not decreased by 1. Second, in the
reachable state where account 1 holds U128_MAX and account 2 holds 5, a
successful transfer of 5 from account 2 to account 1 leaves the recipient
balance clamped at U128_MAX, not increased by 5. -/
theorem transfer_spec_counterexample :
    ((transfer (new 0 10 none none 0).1 0 0 1).res = .ok ∧
      balance_of (transfer (new 0 10 none none 0).1 0 0 1).state 0 ≠
        balance_of (new 0 10 none none 0).1 0 - 1) ∧
    (Reachable (run (new 1 U128_MAX none none 0).1 [Op.mint 2 5]) ∧
      (transfer (run (new 1 U128_MAX none none 0).1 [Op.mint 2 5]) 2 1 5).res = .ok ∧
      balance_of
        (transfer (run (new 1 U128_MAX none none 0).1 [Op.mint 2 5]) 2 1 5).state 1 ≠
        balance_of (run (new 1 U128_MAX none none 0).1 [Op.mint 2 5]) 1 + 5) :=
  ⟨by decide,
   ⟨1, U128_MAX, none, none, 0, [Op.mint 2 5], le_refl _, rfl⟩,
   by decide, by decide⟩

/-- Claim C4 (amended): transfer fails with InsufficientBalance and
mutates nothing exactly when the caller balance is below the value;
otherwise it succeeds and emits one Transfer event carrying the caller,
the recipient and the value. On success a distinct recipient leaves the
caller debited by the value, and is itself credited by the value whenever
its prior balance plus the value fits in u128 (otherwise the stored
balance clamps at U128_MAX); when the recipient is the caller, the
balance, a u128 and hence at most U128_MAX, is unchanged on net. -/
theorem transfer_spec (s : PspCoin) (caller dst : AccountId) (value : Nat) :
    (balance_of s caller < value →
      (transfer s caller dst value).res = .err .InsufficientBalance ∧
      (transfer s caller dst value).state = s ∧
      (transfer s caller dst value).events = []) ∧
    (value ≤ balance_of s caller →
      (transfer s caller dst value).res = .ok ∧
      (transfer s caller dst value).events =
        [Event.Transfer (some caller) (some dst) value] ∧
      (dst ≠ caller →
        balance_of (transfer s caller dst value).state caller =
          balance_of s caller - value ∧
        (balance_of s dst + value ≤ U128_MAX →
          balance_of (transfer s caller dst value).state dst =
            balance_of s dst + value)) ∧
      (dst = caller → balance_of s caller ≤ U128_MAX →
        balance_of (transfer s caller dst value).state caller =
          balance_of s caller)) := by
  refine ⟨?_, ?_⟩
  · intro hlt
    simp [transfer, _transfer_from_to, hlt]
  · intro hge
    have hlt : ¬ balance_of s caller < value := not_lt.mpr hge
    refine ⟨by simp [transfer, _transfer_from_to, hlt],
      by simp [transfer, _transfer_from_to, hlt], ?_, ?_⟩
    · intro hne
      have hne2 : caller ≠ dst := fun hh => hne hh.symm
      constructor
      · simp only [transfer, _transfer_from_to, if_neg hlt]
        simp only [balance_of]
        rw [mapGet_mapInsert_ne _ dst caller _ hne2, mapGet_mapInsert_self]
        simp [satSub]
      · intro hmax
        simp only [transfer, _transfer_from_to, if_neg hlt]
        simp only [balance_of]
        rw [mapGet_mapInsert_self, mapGet_mapInsert_ne _ caller dst _ hne]
        simp only [Option.getD_some, satAdd]
        simp only [balance_of] at hmax
        omega
    · intro heq hcmax
      subst heq
      simp only [transfer, _transfer_from_to, if_neg hlt]
      simp only [balance_of]
      rw [mapGet_mapInsert_self, mapGet_mapInsert_self]
      simp only [Option.getD_some, satAdd, satSub]
      simp only [balance_of] at hcmax hge
      omega

/-- Witness for transfer_spec: transferring 400 of 1000 from account 0 to
account 1 debits and credits by exactly 400. -/
theorem transfer_spec_witness :
    balance_of (transfer exInit 0 1 400).state 0 = balance_of exInit 0 - 400 ∧
    balance_of (transfer exInit 0 1 400).state 1 = balance_of exInit 1 + 400 := by
  have h := ((transfer_spec exInit 0 1 400).2 (by decide)).2.2.1 (by decide)
  exact ⟨h.1, h.2 (by decide)⟩

/-- Claim C5, counterexample: from the reachable state holding the
maximal u128 supply on account 0, mint(10) saturates, so the following
burn(10) lands the balance at U128_MAX - 10 instead of the pre-mint
value. -/
theorem mint_burn_counterexample :
    Reachable (new 0 U128_MAX none none 0).1 ∧
    balance_of (burn (mint (new 0 U128_MAX none none 0).1 0 10).state 0 10).state 0 ≠
      balance_of (new 0 U128_MAX none none 0).1 0 :=
  ⟨⟨0, U128_MAX, none, none, 0, [], le_refl _, rfl⟩, by decide⟩

/-- Claim C5 (amended): for every state and caller X such that neither
the balance of X plus 10 nor the total supply plus 10 exceeds U128_MAX,
mint(X, 10) followed by burn(X, 10) succeeds and returns the balance of X
and the total supply to exactly their pre-mint values. -/
theorem mint_burn_roundtrip (s : PspCoin) (X : AccountId)
    (hbal : balance_of s X + 10 ≤ U128_MAX)
    (hsup : s.total_supply + 10 ≤ U128_MAX) :
    (burn (mint s X 10).state X 10).res = .ok ∧
    balance_of (burn (mint s X 10).state X 10).state X = balance_of s X ∧
    (burn (mint s X 10).state X 10).state.total_supply = s.total_supply := by
  have hbX : balance_of (mint s X 10).state X = balance_of s X + 10 := by
    simp only [mint, balance_of, mapGet_mapInsert_self, Option.getD_some]
    simp only [satAdd, balance_of] at *
    omega
  have hnl : ¬ balance_of (mint s X 10).state X < 10 := by
    rw [hbX]
    omega
  refine ⟨?_, ?_, ?_⟩
  · simp [burn, hnl]
  · simp only [burn, if_neg hnl]
    simp only [mint, balance_of, mapGet_mapInsert_self, Option.getD_some,
      satSub, satAdd] at *
    omega
  · simp only [burn, if_neg hnl]
    simp only [mint, satAdd, satSub] at *
    omega

/-- Witness for mint_burn_roundtrip at the concrete deployment exInit. -/
theorem mint_burn_roundtrip_witness :
    (burn (mint exInit 0 10).state 0 10).res = .ok ∧
    balance_of (burn (mint exInit 0 10).state 0 10).state 0 = balance_of exInit 0 ∧
    (burn (mint exInit 0 10).state 0 10).state.total_supply = exInit.total_supply :=
  mint_burn_roundtrip exInit 0 (by decide) (by decide)

/-- Claim C6: approve always succeeds and unconditionally overwrites the
stored allowance, so two successive approvals of v1 and then v2 for the
same spender leave the allowance at v2, not v1 + v2. -/
theorem approve_overwrite (s : PspCoin) (caller spender : AccountId) (v1 v2 : Nat) :
    (approve s caller spender v1).res = .ok ∧
    (approve (approve s caller spender v1).state caller spender v2).res = .ok ∧
    allowance (approve (approve s caller spender v1).state caller spender v2).state
      caller spender = v2 := by
  refine ⟨rfl, rfl, ?_⟩
  simp [approve, allowance, mapGet_mapInsert_self]

/-- Claim C7: a self-transfer within the stored balance succeeds, leaves
the caller balance exactly as it was, and still emits one Transfer event;
the sufficiency check and the debit both use the balance read before any
mutation, so the call neither fails spuriously nor drifts. -/
theorem self_transfer_noop (s : PspCoin) (caller : AccountId) (value : Nat)
    (hval : value ≤ balance_of s caller) (hmax : balance_of s caller ≤ U128_MAX) :
    (transfer s caller caller value).res = .ok ∧
    balance_of (transfer s caller caller value).state caller = balance_of s caller ∧
    (transfer s caller caller value).events =
      [Event.Transfer (some caller) (some caller) value] := by
  have hlt : ¬ balance_of s caller < value := not_lt.mpr hval
  refine ⟨?_, ?_, ?_⟩
  · simp [transfer, _transfer_from_to, hlt]
  · simp only [transfer, _transfer_from_to, if_neg hlt]
    simp only [balance_of, mapGet_mapInsert_self, Option.getD_some,
      satAdd, satSub] at *
    omega
  · simp [transfer, _transfer_from_to, hlt]

/-- Witness for self_transfer_noop: account 0 transfers 5 of its 1000 to
itself. -/
theorem self_transfer_noop_witness :
    (transfer exInit 0 0 5).res = .ok ∧
    balance_of (transfer exInit 0 0 5).state 0 = balance_of exInit 0 ∧
    (transfer exInit 0 0 5).events = [Event.Transfer (some 0) (some 0) 5] :=
  self_transfer_noop exInit 0 5 (by decide) (by decide)

/-- Claim C8, counterexample: burning the entire balance of the creator
stores the entry with value zero instead of removing it, so a reachable
state holds a zero-valued entry in the balances mapping. -/
theorem sparse_balances_counterexample :
    Reachable (burn (new 0 5 none none 0).1 0 5).state ∧
    mapGet (burn (new 0 5 none none 0).1 0 5).state.balances 0 = some 0 :=
  ⟨⟨0, 5, none, none, 0, [Op.burn 0 5], by decide, rfl⟩, by decide⟩

/-- Claim C8 (amended): absent entries of the balances mapping are read
as zero by balance_of, but the mapping is not sparse: operations store
zero-valued entries rather than removing them, and some reachable state
holds an entry stored with value zero. -/
theorem balances_absent_reads_zero :
    (∀ (s : PspCoin) (a : AccountId), mapGet s.balances a = none →
      balance_of s a = 0) ∧
    ∃ s : PspCoin, Reachable s ∧ ∃ k, mapGet s.balances k = some 0 := by
  constructor
  · intro s a h
    simp [balance_of, h]
  · exact ⟨(burn (new 0 5 none none 0).1 0 5).state,
      ⟨0, 5, none, none, 0, [Op.burn 0 5], by decide, rfl⟩, 0, by decide⟩

/-- Witness for balances_absent_reads_zero: account 1 holds no entry in a
fresh deployment, so its balance reads zero. -/
theorem balances_absent_reads_zero_witness :
    balance_of (new 0 7 none none 0).1 1 = 0 :=
  balances_absent_reads_zero.1 (new 0 7 none none 0).1 1 (by decide)

/-- Claim C9: no operation, on any state and any arguments, ever returns
the error ZeroSenderAddress or ZeroRecipientAddress; both variants are
declared in PSP22Error but unreachable from every public operation. -/
theorem no_zero_address_errors (s : PspCoin) (op : Op) :
    (runOp s op).res ≠ .err .ZeroSenderAddress ∧
    (runOp s op).res ≠ .err .ZeroRecipientAddress := by
  cases op with
  | transfer caller dst value =>
    by_cases hlt : balance_of s caller < value <;>
      simp [runOp, transfer, _transfer_from_to, hlt]
  | transfer_from caller src dst value =>
    by_cases hlt : allowance s src caller < value
    · simp [runOp, transfer_from, hlt]
    · by_cases hbal : balance_of s src < value <;>
        simp [runOp, transfer_from, _transfer_from_to, hlt, hbal]
  | approve caller spender value => simp [runOp, approve]
  | increase_allowance caller spender delta_value =>
    simp [runOp, increase_allowance, approve]
  | decrease_allowance caller spender delta_value =>
    by_cases hlt : allowance s caller spender < delta_value <;>
      simp [runOp, decrease_allowance, approve, hlt]
  | mint caller value => simp [runOp, mint]
  | burn caller value =>
    by_cases hlt : balance_of s caller < value <;> simp [runOp, burn, hlt]

/-- Claim C10: a delegated transfer whose caller is also the source gets
no owner bypass: it requires the self-allowance to cover the value,
failing with InsufficientAllowance otherwise regardless of the balance,
and on success it decrements the self-allowance by the value. -/
theorem transfer_from_self_requires_allowance (s : PspCoin) (C dst : AccountId)
    (value : Nat) :
    (allowance s C C < value →
      (transfer_from s C C dst value).res = .err .InsufficientAllowance ∧
      (transfer_from s C C dst value).state = s) ∧
    ((transfer_from s C C dst value).res = .ok →
      allowance (transfer_from s C C dst value).state C C =
        allowance s C C - value) := by
  refine ⟨?_, ?_⟩
  · intro hlt
    simp [transfer_from, hlt]
  · intro hok
    by_cases hlt : allowance s C C < value
    · simp [transfer_from, hlt] at hok
    · by_cases hbal : balance_of s C < value
      · simp [transfer_from, _transfer_from_to, hlt, hbal] at hok
      · simp only [transfer_from, if_neg hlt, _transfer_from_to, if_neg hbal]
        simp [allowance, mapGet_mapInsert_self, satSub]

/-- Witness for transfer_from_self_requires_allowance: account 0 holds
1000 tokens but no self-allowance, so a delegated self-spend of 5 fails
with InsufficientAllowance and mutates nothing. -/
theorem transfer_from_self_requires_allowance_witness :
    (transfer_from exInit 0 0 1 5).res = .err .InsufficientAllowance ∧
    (transfer_from exInit 0 0 1 5).state = exInit :=
  (transfer_from_self_requires_allowance exInit 0 1 5).1 (by decide)

end InkErc20
